import Mathlib

/-!
# Verification of the CoinMarketCap API client (`src/Coinmarketcap.py`)

A shallow embedding of the client in Lean 4. Python dictionaries are
modelled as association lists with Python's insertion/update semantics,
JSON values as an inductive type, HTTP responses as a status code plus a
decoded JSON-object body, and the network as an oracle `Nat → HttpResponse`
giving the response to the n-th GET request issued.  Stateful parts
(the lazily created `requests.Session`) are modelled by explicit state
passing.  `time.mktime` is modelled with a fixed UTC offset (a parameter
`tzOffset`), i.e. a timezone without DST transitions.
-/

set_option autoImplicit false

universe u

/-- Python `dict` lookup (`d[k]` / `k in d`) over an association list:
returns the first binding of `k`, if any. -/
def dictGet {β : Type u} : List (String × β) → String → Option β
  | [], _ => none
  | (k', v) :: rest, k => if k' = k then some v else dictGet rest k

/-- Python `dict` assignment `d[k] = v`: updates the existing binding of `k`
in place, or appends a new binding at the end (insertion order). -/
def dictSet {β : Type u} : List (String × β) → String → β → List (String × β)
  | [], k, v => [(k, v)]
  | (k', v') :: rest, k, v =>
    if k' = k then (k, v) :: rest else (k', v') :: dictSet rest k v

/-- Decoded JSON values (numbers are modelled as integers; no claim
depends on fractional numerics). -/
inductive Json where
  | null
  | bool (b : Bool)
  | num (n : Int)
  | str (s : String)
  | arr (elems : List Json)
  | obj (fields : List (String × Json))

/-- An HTTP response: its status code and its JSON-decoded body
(`response.json()`), which for this API is always a JSON object. -/
structure HttpResponse where
  status_code : Int
  body : List (String × Json)

/-- Python subscription `j[k]` on a JSON value: `KeyError` when the key is
missing from an object, `TypeError` when the value is not an object. -/
def jsonGet (j : Json) (k : String) : Except String Json :=
  match j with
  | .obj kvs =>
    match dictGet kvs k with
    | some v => .ok v
    | none => .error ("KeyError: " ++ k)
  | _ => .error ("TypeError: value is not subscriptable at key " ++ k)

/-- Python iteration over a value expected to be a JSON array
(`for x in l`): `TypeError` when it is not an array. -/
def Json.asArr : Json → Except String (List Json)
  | .arr xs => .ok xs
  | _ => .error "TypeError: value is not iterable"

/-- Python `.items()` on a value expected to be a JSON object:
`AttributeError` when it is not an object. -/
def Json.asObj : Json → Except String (List (String × Json))
  | .obj kvs => .ok kvs
  | _ => .error "AttributeError: value has no attribute items"

namespace CoinMarketCap

/-- `CoinMarketCap.PRODUCTION_BASE_URL`. -/
def PRODUCTION_BASE_URL : String := "https://pro-api.coinmarketcap.com"

/-- `CoinMarketCap.SANDBOX_BASE_URL`. -/
def SANDBOX_BASE_URL : String := "https://sandbox-api.coinmarketcap.com"

/-- `CoinMarketCap.API_TYPE_MAP`. -/
def API_TYPE_MAP : List (String × Nat) := [("standard", 30), ("professional", 365)]

/-- The class attribute `CoinMarketCap.default_historical_data_length = 29`,
read by instances whose `api_type` is not in `API_TYPE_MAP`. -/
def default_historical_data_length : Nat := 29

/-- `CoinMarketCap.__get_response_data(response)`: decode the body; on
status 200 return the `"data"` field (a `KeyError` if absent), otherwise
print the full decoded body and implicitly return `None`.  The result is
`(returned payload, printed diagnostic)`. -/
def get_response_data (response : HttpResponse) :
    Except String (Option Json × Option Json) :=
  if response.status_code = 200 then
    match dictGet response.body "data" with
    | some v => .ok (some v, none)
    | none => .error "KeyError: data"
  else
    .ok (none, some (Json.obj response.body))

/-- The `while response.status_code is not 200` loop of
`CoinMarketCap.__get_response`, after the initial request.  (In CPython,
`is not 200` on `int` status codes coincides with `!= 200` because small
integers are interned.)  `remaining` is the number of retry requests the
budget still allows (`retry + 1 - attempt`), `idx` the index of the next
request in the oracle, `slept` the seconds slept so far, `resp` the
response currently in hand.  Returns `(requests issued so far, seconds
slept, final response)`; each retry sleeps a fixed 5 seconds before
re-issuing the request, and the loop breaks once `attempt > retry`. -/
def getResponseLoop (responses : Nat → HttpResponse) :
    Nat → Nat → Nat → HttpResponse → Nat × Nat × HttpResponse
  | 0, idx, slept, resp => (idx, slept, resp)
  | remaining + 1, idx, slept, resp =>
    if resp.status_code = 200 then (idx, slept, resp)
    else
      let rnew := responses idx
      if remaining = 0 then (idx + 1, slept + 5, rnew)
      else getResponseLoop responses remaining (idx + 1) (slept + 5) rnew

/-- The request/retry part of `CoinMarketCap.__get_response(endpoint,
retry, params)`: issue the initial request, then run the retry loop with
budget `retry + 1 - attempt` starting at `attempt = 0`.  Returns
`(total requests issued, total seconds slept, final response)`. -/
def getResponseRaw (responses : Nat → HttpResponse) (retry : Nat) :
    Nat × Nat × HttpResponse :=
  getResponseLoop responses (retry + 1) 1 0 (responses 0)

/-- `CoinMarketCap.__get_response`: retry loop followed by envelope
extraction on whatever response the loop ended with. -/
def get_response_payload (responses : Nat → HttpResponse) (retry : Nat) :
    Except String (Option Json × Option Json) :=
  get_response_data (getResponseRaw responses retry).2.2

end CoinMarketCap

/-- A Python `datetime`-like instant (year, month, day, hour, minute,
second), the value manipulated by `strftime` in the source. -/
structure PyDateTime where
  year : Nat
  month : Nat
  day : Nat
  hour : Nat
  minute : Nat
  second : Nat
deriving DecidableEq

/-- Left-pad the decimal rendering of `n` with zeros to width `w`, as the
zero-padded `strftime` conversions `%Y` (w = 4) and `%m`, `%d`, `%H`,
`%M`, `%S` (w = 2) do. -/
def padNum (w : Nat) (n : Nat) : String :=
  let s := Nat.repr n
  ⟨List.replicate (w - s.length) '0' ++ s.data⟩

/-- `timestamp.strftime("%Y-%m-%d")`. -/
def strftime_d (t : PyDateTime) : String :=
  padNum 4 t.year ++ "-" ++ padNum 2 t.month ++ "-" ++ padNum 2 t.day

/-- `timestamp.strftime("%Y-%m-%d %H")`. -/
def strftime_h (t : PyDateTime) : String :=
  strftime_d t ++ " " ++ padNum 2 t.hour

/-- `timestamp.strftime("%Y-%m-%d %H:%M")`. -/
def strftime_M (t : PyDateTime) : String :=
  strftime_h t ++ ":" ++ padNum 2 t.minute

/-- `timestamp.strftime("%Y-%m-%d %H:%M:%S")`. -/
def strftime_s (t : PyDateTime) : String :=
  strftime_M t ++ ":" ++ padNum 2 t.second

/-- Split a character list at every occurrence of the separator `c`
(Python `str.split(c)` on a non-empty separator). -/
def splitOnChar (c : Char) : List Char → List (List Char)
  | [] => [[]]
  | x :: xs =>
    match splitOnChar c xs with
    | [] => if x = c then [[], []] else [[x]]
    | y :: ys => if x = c then [] :: y :: ys else (x :: y) :: ys

/-- Decimal digits to a number: `some` exactly on non-empty all-digit
strings (the behavior of `int(...)` on the fields `strptime`-style
parsing accepts). -/
def digitsToNat : List Char → Option Nat
  | [] => none
  | l => if l.all Char.isDigit
         then some (l.foldl (fun a c => a * 10 + (c.toNat - 48)) 0)
         else none

/-- The `YYYY-MM-DD` date part of an ISO-8601 timestamp. -/
def parseDatePart (l : List Char) : Option (Nat × Nat × Nat) :=
  match splitOnChar '-' l with
  | [y, m, d] => do
    let y ← digitsToNat y
    let m ← digitsToNat m
    let d ← digitsToNat d
    if 1 ≤ m ∧ m ≤ 12 ∧ 1 ≤ d ∧ d ≤ 31 then some (y, m, d) else none
  | _ => none

/-- The `HH:MM` or `HH:MM:SS` time part of an ISO-8601 timestamp. -/
def parseTimePart (l : List Char) : Option (Nat × Nat × Nat) :=
  match splitOnChar ':' l with
  | [h, m] => do
    let h ← digitsToNat h
    let m ← digitsToNat m
    if h ≤ 23 ∧ m ≤ 59 then some (h, m, 0) else none
  | [h, m, s] => do
    let h ← digitsToNat h
    let m ← digitsToNat m
    let s ← digitsToNat s
    if h ≤ 23 ∧ m ≤ 59 ∧ s ≤ 61 then some (h, m, s) else none
  | _ => none

/-- Model of the third-party `dateutil.parser.parse`, restricted to the
ISO-8601 timestamp strings this API returns: `YYYY-MM-DD`, optionally
followed by a `T` or space separated `HH:MM[:SS]` time, optionally with a
trailing `Z`.  `none` models the parser raising on anything it cannot
understand. -/
def dateutil_parse (s : String) : Option PyDateTime :=
  let l := s.data
  let l := if l.getLast? = some 'Z' then l.dropLast else l
  let parts := if l.contains 'T' then splitOnChar 'T' l else splitOnChar ' ' l
  match parts with
  | [d] => do
    let (y, m, dd) ← parseDatePart d
    pure ⟨y, m, dd, 0, 0, 0⟩
  | [d, t] => do
    let (y, m, dd) ← parseDatePart d
    let (hh, mm, ss) ← parseTimePart t
    pure ⟨y, m, dd, hh, mm, ss⟩
  | _ => none

/-- The `timestamp` argument of `convert_datetime_precision`: either a
string (parsed with `dateutil.parser.parse`) or an already datetime-like
value. -/
inductive TimestampInput where
  | ofString (s : String)
  | ofDatetime (t : PyDateTime)

/-- The instant a `TimestampInput` denotes: the `isinstance(timestamp,
str)` branch parses, the other branch uses the value as is. -/
def resolveTimestamp : TimestampInput → Option PyDateTime
  | .ofString s => dateutil_parse s
  | .ofDatetime t => some t

namespace CoinMarketCap

/-- `CoinMarketCap.convert_datetime_precision(timestamp, time_interval)`:
parse string inputs, build the four-entry precision dict eagerly, index
it with `time_interval`; a missing key becomes
`ValueError('time_interval should be "d, h, M, s"')` via the bare
`except`.  A failing parse raises before the dict is built. -/
def convert_datetime_precision (timestamp : TimestampInput)
    (time_interval : String) : Except String String :=
  match resolveTimestamp timestamp with
  | none => .error "dateutil.parser.ParserError: unknown timestamp format"
  | some t =>
    let params := [("d", strftime_d t), ("h", strftime_h t),
                   ("M", strftime_M t), ("s", strftime_s t)]
    match dictGet params time_interval with
    | some r => .ok r
    | none => .error "ValueError: time_interval should be \"d, h, M, s\""

/-- `convert_datetime_precision` applied to a JSON field value, as the
quote parser does through `Series.apply`: a JSON string goes through the
`isinstance(timestamp, str)` branch; any other JSON value has no
`strftime` attribute, which raises while the precision dict is built. -/
def convert_precision_json (v : Json) (time_interval : String) :
    Except String String :=
  match v with
  | .str s => convert_datetime_precision (.ofString s) time_interval
  | _ => .error "AttributeError: value has no attribute strftime"

end CoinMarketCap

/-- A `for` loop that appends one built record per element to `result`,
in order, propagating the first raised error (the loop bodies of
`parse_quote_data` and `parse_ohlcv_data`). -/
def mapExcept {α β : Type u} (f : α → Except String β) :
    List α → Except String (List β)
  | [] => .ok []
  | x :: xs => do
    let y ← f x
    let ys ← mapExcept f xs
    pure (y :: ys)

namespace CoinMarketCap

/-- One iteration of the loop in `parse_quote_data`: build `result_dict`
with the entry's `"timestamp"` first, then insert every key/value of
`quotes["quote"]["USD"]` with dict-update semantics. -/
def quoteRow (quotes : Json) : Except String (List (String × Json)) := do
  let ts ← jsonGet quotes "timestamp"
  let q ← jsonGet quotes "quote"
  let usd ← jsonGet q "USD"
  let items ← usd.asObj
  pure (items.foldl (fun acc kv => dictSet acc kv.1 kv.2) [("timestamp", ts)])

/-- The column rewrite `result_df["timestamp"] =
result_df["timestamp"].apply(convert_datetime_precision, time_interval="h")`
restricted to one row: replace the row's `"timestamp"` value by its
hour-precision rendering. -/
def convertRowTimestamp (row : List (String × Json)) :
    Except String (List (String × Json)) := do
  match dictGet row "timestamp" with
  | some v => do
    let s ← convert_precision_json v "h"
    pure (dictSet row "timestamp" (Json.str s))
  | none => .error "KeyError: timestamp"

/-- The value returned by `parse_quote_data`: the `"symbol"` field and
the rows of `result_df` (the `pandas.DataFrame` is modelled by its list
of records, in row order, each an insertion-ordered dict). -/
structure QuoteResult where
  symbol : Json
  result_df : List (List (String × Json))

/-- `CoinMarketCap.parse_quote_data(data_dict)`: extract `"symbol"` and
`"quotes"`, build one record per quote entry, then rewrite the
`"timestamp"` column to hour precision.  On an empty `quotes` list the
built `DataFrame` has no columns at all, so the column access
`result_df["timestamp"]` raises a `KeyError`. -/
def parse_quote_data (data_dict : Json) : Except String QuoteResult := do
  let symbol ← jsonGet data_dict "symbol"
  let quotes_list ← (← jsonGet data_dict "quotes").asArr
  let result ← mapExcept quoteRow quotes_list
  match result with
  | [] => .error "KeyError: timestamp"
  | _ => do
    let result_df ← mapExcept convertRowTimestamp result
    pure ⟨symbol, result_df⟩

/-- One iteration of the loop in `parse_ohlcv_data`: build `result_dict`
with the entry's `"time_close"` first (unmodified), then insert every
key/value of `quotes["quote"]["USD"]`. -/
def ohlcvRow (quotes : Json) : Except String (List (String × Json)) := do
  let tc ← jsonGet quotes "time_close"
  let q ← jsonGet quotes "quote"
  let usd ← jsonGet q "USD"
  let items ← usd.asObj
  pure (items.foldl (fun acc kv => dictSet acc kv.1 kv.2) [("time_close", tc)])

/-- `CoinMarketCap.parse_ohlcv_data(data_dict)`: one record per quote
entry; no timestamp normalization and no column rewrite afterwards. -/
def parse_ohlcv_data (data_dict : Json) :
    Except String (List (List (String × Json))) := do
  let quotes_list ← (← jsonGet data_dict "quotes").asArr
  mapExcept ohlcvRow quotes_list

/-- `CoinMarketCap.split_list(ori_list, length)`: the slices
`ori_list[i : i + length]` for `i in range(0, len(ori_list), length)`.
(`range` with a positive step yields `⌈len / length⌉` indices.) -/
def split_list {α : Type u} (ori_list : List α) (length : Nat) :
    List (List α) :=
  (List.range' 0 ((ori_list.length + length - 1) / length) length).map
    (fun i => (ori_list.drop i).take length)

end CoinMarketCap

/-- A Python `datetime.date`, represented by its proleptic-Gregorian
ordinal; `datetime.timedelta(days = n)` subtraction is ordinal
subtraction. -/
structure PyDate where
  ordinal : Int
deriving DecidableEq

namespace CoinMarketCap

/-- `CoinMarketCap.convert_to_day_begin(date_time)` =
`int(time.mktime(time.strptime(str(date_time), '%Y-%m-%d')))`: the Unix
timestamp of local midnight of the date.  `time.mktime` is modelled with
a fixed UTC offset `tzOffset` (no DST transitions), so local midnight of
a date with ordinal `o` is `o * 86400 + tzOffset`. -/
def convert_to_day_begin (tzOffset : Int) (date_time : PyDate) : Int :=
  date_time.ordinal * 86400 + tzOffset

/-- The lazily created `requests.Session`. -/
structure Session where
  headers : List (String × String)

/-- The state of a `CoinMarketCap` instance: the fields assigned by
`__init__`. -/
structure Client where
  api_key : String
  version : String
  default_timeout : Nat
  url : String
  _session : Option Session
  default_historical_data_length : Nat
  default_start_date : Int
  default_end_date : Int

/-- `CoinMarketCap.__init__(api_key, is_sandbox, api_type,
default_timeout)`.  The environment enters through `today`
(`datetime.date.today()`) and `tzOffset` (the local timezone of
`time.mktime`). -/
def init (tzOffset : Int) (today : PyDate) (api_key : String)
    (is_sandbox : Bool) (api_type : String) (default_timeout : Nat) :
    Client :=
  let version := "v1"
  let url := (if is_sandbox then SANDBOX_BASE_URL else PRODUCTION_BASE_URL)
    ++ "/" ++ version
  let len : Nat := match dictGet API_TYPE_MAP api_type with
    | some n => n - 1
    | none => default_historical_data_length
  let today_begin := convert_to_day_begin tzOffset today
  let start_date := convert_to_day_begin tzOffset ⟨today.ordinal - (len : Int)⟩
  { api_key := api_key
    version := version
    default_timeout := default_timeout
    url := url
    _session := none
    default_historical_data_length := len
    default_start_date := start_date
    default_end_date := today_begin }

/-- The `session` property: on first access build one `requests.Session`
whose default headers (`hdrs`) are updated with the JSON content type and
the API key header, store it in `_session`, and return it; later accesses
return the stored session unchanged.  (A `requests.Session` object is
always truthy, so `if not self._session` is a pure `None` test.) -/
def session (hdrs : List (String × String)) (c : Client) :
    Client × Session :=
  match c._session with
  | some s => (c, s)
  | none =>
    let s : Session :=
      ⟨dictSet (dictSet hdrs "Content-Type" "application/json")
        "X-CMC_PRO_API_KEY" c.api_key⟩
    ({ c with _session := some s }, s)

/-- A query-parameter value: the source passes strings and integer
timestamps. -/
inductive ParamValue where
  | str (s : String)
  | int (i : Int)
deriving DecidableEq

/-- A GET request as handed to `session.get(url, params, timeout)`:
identical for the initial attempt and every retry. -/
structure RequestSpec where
  url : String
  params : Option (List (String × ParamValue))
  timeout : Nat

/-- The observable outcome of one `__get_response` call: the client state
after the (lazy) session access, the request that was issued, how many
times and how long it slept, what was printed, and the extracted
payload. -/
structure GetOutcome where
  client : Client
  request : RequestSpec
  requests_made : Nat
  slept_seconds : Nat
  printed : List Json
  data : Except String (Option Json)

/-- `CoinMarketCap.__get_response(endpoint, retry, params)` threading the
instance state: access `session` (creating it on first use), issue the
initial request and the retry loop against the response oracle, then
extract the envelope from the final response. -/
def get_response (hdrs : List (String × String)) (c : Client)
    (responses : Nat → HttpResponse) (endpoint : String) (retry : Nat)
    (params : Option (List (String × ParamValue))) : GetOutcome :=
  let cs := session hdrs c
  let raw := getResponseRaw responses retry
  let rd := get_response_data raw.2.2
  { client := cs.1
    request := ⟨c.url ++ endpoint, params, c.default_timeout⟩
    requests_made := raw.1
    slept_seconds := raw.2.1
    printed := match rd with | .ok (_, some p) => [p] | _ => []
    data := match rd with | .ok (d, _) => .ok d | .error e => .error e }

/-- `CoinMarketCap.get_ticker_list()`: the raw `"data"` payload of
`/cryptocurrency/map`, no parameters. -/
def get_ticker_list (hdrs : List (String × String)) (c : Client)
    (responses : Nat → HttpResponse) : GetOutcome :=
  get_response hdrs c responses "/cryptocurrency/map" 1 none

/-- `CoinMarketCap.get_meta_data_from_id(ticker_id)`: the raw `"data"`
payload of `/cryptocurrency/info` for one id. -/
def get_meta_data_from_id (hdrs : List (String × String)) (c : Client)
    (responses : Nat → HttpResponse) (ticker_id : String) : GetOutcome :=
  get_response hdrs c responses "/cryptocurrency/info" 1
    (some [("id", .str ticker_id)])

/-- The warning printed by `get_market_quotes_from_id` when the effective
range is out of order. -/
def time_range_warning : String :=
  "Time period out of range, check time input and default time point"

/-- `CoinMarketCap.get_market_quotes_from_id(ticker_id, time_start,
time_end, convert_currency)`: resolve defaults, print a warning (only)
when `_time_start > _time_end`, issue the request with the resolved range
at 6-hour granularity, and pipe the payload through `parse_quote_data`
(`None` payloads make the parser subscript `None`, a `TypeError`).
Returns `(printed warnings, request outcome, parse result)`. -/
def get_market_quotes_from_id (hdrs : List (String × String)) (c : Client)
    (responses : Nat → HttpResponse) (ticker_id : String)
    (time_start time_end : Option Int) (convert_currency : String) :
    List String × GetOutcome × Except String QuoteResult :=
  let _time_start := time_start.getD c.default_start_date
  let _time_end := time_end.getD c.default_end_date
  let warnings := if _time_start > _time_end then [time_range_warning] else []
  let outcome := get_response hdrs c responses
    "/cryptocurrency/quotes/historical" 1
    (some [("id", .str ticker_id), ("time_start", .int _time_start),
           ("time_end", .int _time_end), ("interval", .str "6h"),
           ("convert", .str convert_currency)])
  let parsed := match outcome.data with
    | .ok (some d) => parse_quote_data d
    | .ok none => .error "TypeError: NoneType is not subscriptable"
    | .error e => .error e
  (warnings, outcome, parsed)

/-- `CoinMarketCap.get_ohlcv_from_id(ticker_id, convert_currency)`:
always the default date range, daily granularity, piped through
`parse_ohlcv_data`. -/
def get_ohlcv_from_id (hdrs : List (String × String)) (c : Client)
    (responses : Nat → HttpResponse) (ticker_id : String)
    (convert_currency : String) :
    GetOutcome × Except String (List (List (String × Json))) :=
  let outcome := get_response hdrs c responses
    "/cryptocurrency/ohlcv/historical" 1
    (some [("id", .str ticker_id), ("time_start", .int c.default_start_date),
           ("time_end", .int c.default_end_date), ("interval", .str "1d"),
           ("convert", .str convert_currency)])
  let parsed := match outcome.data with
    | .ok (some d) => parse_ohlcv_data d
    | .ok none => .error "TypeError: NoneType is not subscriptable"
    | .error e => .error e
  (outcome, parsed)

/-- The configuration fields fixed by `__init__` agree on two client
states (everything except the lazily-built `_session`). -/
def sameConfig (a b : Client) : Prop :=
  a.api_key = b.api_key ∧ a.version = b.version ∧
  a.default_timeout = b.default_timeout ∧ a.url = b.url ∧
  a.default_historical_data_length = b.default_historical_data_length ∧
  a.default_start_date = b.default_start_date ∧
  a.default_end_date = b.default_end_date

end CoinMarketCap

open CoinMarketCap

/-! ## Helper lemmas on the dictionary model -/

theorem dictGet_dictSet_self {β : Type u} (m : List (String × β)) (k : String) (v : β) :
    dictGet (dictSet m k v) k = some v := by
  induction m with
  | nil => simp [dictGet, dictSet]
  | cons kv rest ih =>
    obtain ⟨k', v'⟩ := kv
    by_cases h : k' = k
    · simp [dictGet, dictSet, h]
    · simp [dictGet, dictSet, h, ih]

theorem dictGet_dictSet_ne {β : Type u} (m : List (String × β)) (k k' : String) (v : β)
    (h : k' ≠ k) : dictGet (dictSet m k v) k' = dictGet m k' := by
  induction m with
  | nil => simp [dictGet, dictSet, Ne.symm h]
  | cons kv rest ih =>
    obtain ⟨k₀, v₀⟩ := kv
    by_cases h₀ : k₀ = k
    · subst h₀
      simp [dictGet, dictSet, Ne.symm h]
    · by_cases h₁ : k₀ = k'
      · simp [dictGet, dictSet, h, h₀, h₁]
      · simp [dictGet, dictSet, h₀, h₁, ih]

theorem dictSet_eq_append {β : Type u} (m : List (String × β)) (k : String) (v : β)
    (h : k ∉ m.map Prod.fst) : dictSet m k v = m ++ [(k, v)] := by
  induction m with
  | nil => simp [dictSet]
  | cons kv rest ih =>
    obtain ⟨k₀, v₀⟩ := kv
    simp only [List.map_cons, List.mem_cons] at h
    push_neg at h
    simp [dictSet, Ne.symm h.1, ih h.2]

theorem foldl_dictSet_eq_append {β : Type u} (items acc : List (String × β))
    (hnd : (items.map Prod.fst).Nodup)
    (hdisj : ∀ kv ∈ items, kv.1 ∉ acc.map Prod.fst) :
    items.foldl (fun a kv => dictSet a kv.1 kv.2) acc = acc ++ items := by
  induction items generalizing acc with
  | nil => simp
  | cons kv rest ih =>
    obtain ⟨k, v⟩ := kv
    simp only [List.map_cons, List.nodup_cons] at hnd
    have hk : k ∉ acc.map Prod.fst := hdisj (k, v) (by simp)
    have step : dictSet acc k v = acc ++ [(k, v)] := dictSet_eq_append acc k v hk
    have hdisj' : ∀ kv ∈ rest, kv.1 ∉ (acc ++ [(k, v)]).map Prod.fst := by
      intro kv hkv
      simp only [List.map_append, List.mem_append, List.map_cons, List.map_nil,
        List.mem_singleton]
      push_neg
      refine ⟨hdisj kv (by simp [hkv]), ?_⟩
      intro he
      exact hnd.1 (he ▸ List.mem_map_of_mem Prod.fst hkv)
    calc (((k, v) :: rest).foldl (fun a kv => dictSet a kv.1 kv.2) acc)
        = rest.foldl (fun a kv => dictSet a kv.1 kv.2) (acc ++ [(k, v)]) := by
          simp [step]
      _ = (acc ++ [(k, v)]) ++ rest := ih (acc ++ [(k, v)]) hnd.2 hdisj'
      _ = acc ++ ((k, v) :: rest) := by simp

theorem mapExcept_map_ok {α β γ : Type u} (f : β → Except String γ) (g : α → β)
    (h : α → γ) (l : List α) (hl : ∀ a ∈ l, f (g a) = .ok (h a)) :
    mapExcept f (l.map g) = .ok (l.map h) := by
  induction l with
  | nil => simp [mapExcept]
  | cons x xs ih =>
    simp only [List.map_cons, mapExcept, hl x (by simp)]
    rw [ih (fun a ha => hl a (by simp [ha]))]
    rfl

/-! ## The claims -/

/-- C2: for every HTTP response whose body decodes as JSON, envelope
extraction returns exactly the `"data"` field of the decoded body when
the status code is 200; when the status code is not 200 it prints the
full decoded body as a diagnostic and returns no payload (`None`). -/
theorem C2_envelope_extraction (r : HttpResponse) (v : Json) :
    (r.status_code = 200 → dictGet r.body "data" = some v →
      get_response_data r = .ok (some v, none)) ∧
    (r.status_code ≠ 200 →
      get_response_data r = .ok (none, some (Json.obj r.body))) := by
  constructor
  · intro h200 hdata
    simp [get_response_data, h200, hdata]
  · intro hne
    simp [get_response_data, hne]

/-- Witness for C2: a 200 response with a `"data"` field yields exactly
that field and prints nothing; a 500 response yields no payload and
prints the whole decoded body. -/
theorem C2_envelope_extraction_witness :
    get_response_data ⟨200, [("status", Json.null), ("data", Json.num 7)]⟩
      = .ok (some (Json.num 7), none) ∧
    get_response_data ⟨500, [("status", Json.null)]⟩
      = .ok (none, some (Json.obj [("status", Json.null)])) :=
  ⟨(C2_envelope_extraction ⟨200, [("status", Json.null), ("data", Json.num 7)]⟩
      (Json.num 7)).1 rfl rfl,
   (C2_envelope_extraction ⟨500, [("status", Json.null)]⟩ Json.null).2
      (by decide)⟩

/-- C5: a recognized tier resolves to the tier's maximum days minus 1
(standard: 30 − 1 = 29, professional: 365 − 1 = 364); every unrecognized
tier name falls back to the class default of 29 days. -/
theorem C5_lookback_window (tzOffset : Int) (today : PyDate)
    (api_key : String) (is_sandbox : Bool) (api_type : String)
    (default_timeout : Nat) :
    (api_type = "standard" →
      (init tzOffset today api_key is_sandbox api_type default_timeout
        ).default_historical_data_length = 29) ∧
    (api_type = "professional" →
      (init tzOffset today api_key is_sandbox api_type default_timeout
        ).default_historical_data_length = 364) ∧
    (api_type ≠ "standard" → api_type ≠ "professional" →
      (init tzOffset today api_key is_sandbox api_type default_timeout
        ).default_historical_data_length = 29) := by
  refine ⟨?_, ?_, ?_⟩
  · intro h
    subst h
    rfl
  · intro h
    subst h
    rfl
  · intro h1 h2
    simp [init, API_TYPE_MAP, dictGet, Ne.symm h1, Ne.symm h2,
      CoinMarketCap.default_historical_data_length]

/-- Witness for C5 at the three scenario tiers `"standard"`,
`"professional"` and the unrecognized `"enterprise"`. -/
theorem C5_lookback_window_witness :
    (init 0 ⟨738000⟩ "key" true "standard" 10
      ).default_historical_data_length = 29 ∧
    (init 0 ⟨738000⟩ "key" true "professional" 10
      ).default_historical_data_length = 364 ∧
    (init 0 ⟨738000⟩ "key" true "enterprise" 10
      ).default_historical_data_length = 29 :=
  ⟨(C5_lookback_window 0 ⟨738000⟩ "key" true "standard" 10).1 rfl,
   (C5_lookback_window 0 ⟨738000⟩ "key" true "professional" 10).2.1 rfl,
   (C5_lookback_window 0 ⟨738000⟩ "key" true "enterprise" 10).2.2
     (by decide) (by decide)⟩

/-- C4: for every client construction the stored default start and end
timestamps are local midnights of calendar dates, and end minus start is
exactly the resolved lookback window measured in days (86400 seconds per
day). -/
theorem C4_default_range (tzOffset : Int) (today : PyDate)
    (api_key : String) (is_sandbox : Bool) (api_type : String)
    (default_timeout : Nat) :
    (∃ d : PyDate,
      (init tzOffset today api_key is_sandbox api_type default_timeout
        ).default_start_date = convert_to_day_begin tzOffset d) ∧
    (∃ d : PyDate,
      (init tzOffset today api_key is_sandbox api_type default_timeout
        ).default_end_date = convert_to_day_begin tzOffset d) ∧
    (init tzOffset today api_key is_sandbox api_type default_timeout
        ).default_end_date
      - (init tzOffset today api_key is_sandbox api_type default_timeout
        ).default_start_date
      = ((init tzOffset today api_key is_sandbox api_type default_timeout
        ).default_historical_data_length : Int) * 86400 := by
  refine ⟨⟨⟨today.ordinal - ((init tzOffset today api_key is_sandbox api_type
      default_timeout).default_historical_data_length : Int)⟩, ?_⟩,
    ⟨today, ?_⟩, ?_⟩
  · rfl
  · rfl
  · simp only [init, convert_to_day_begin]
    ring

/-- Full characterization of the retry loop: bounds on the number of
requests, the sleep accounting, the final response being the last one
issued, all earlier responses being non-200, and the budget being fully
consumed whenever the loop ends on a non-200 response. -/
theorem getResponseLoop_spec (responses : Nat → HttpResponse) :
    ∀ (rem idx slept : Nat) (resp : HttpResponse) (i' s' : Nat)
      (r' : HttpResponse),
      getResponseLoop responses rem idx slept resp = (i', s', r') →
      idx ≤ i' ∧ i' ≤ idx + rem ∧ s' = slept + 5 * (i' - idx) ∧
      ((i' = idx ∧ r' = resp) ∨ (idx < i' ∧ r' = responses (i' - 1))) ∧
      (resp.status_code ≠ 200 →
        ∀ j, idx ≤ j → j + 1 < i' → (responses j).status_code ≠ 200) ∧
      (idx < i' → resp.status_code ≠ 200) ∧
      (r'.status_code ≠ 200 → i' = idx + rem) := by
  intro rem
  induction rem with
  | zero =>
    intro idx slept resp i' s' r' h
    simp only [getResponseLoop, Prod.mk.injEq] at h
    obtain ⟨h1, h2, h3⟩ := h
    subst h1; subst h2; subst h3
    refine ⟨le_refl _, by omega, by omega, Or.inl ⟨rfl, rfl⟩, ?_, ?_, by omega⟩
    · intro _ j hj hj2
      omega
    · intro hlt
      omega
  | succ n ih =>
    intro idx slept resp i' s' r' h
    simp only [getResponseLoop] at h
    by_cases h200 : resp.status_code = 200
    · rw [if_pos h200] at h
      simp only [Prod.mk.injEq] at h
      obtain ⟨h1, h2, h3⟩ := h
      subst h1; subst h2; subst h3
      refine ⟨le_refl _, by omega, by omega, Or.inl ⟨rfl, rfl⟩, ?_, ?_, ?_⟩
      · intro _ j hj hj2
        omega
      · intro hlt
        omega
      · intro habs
        exact absurd h200 habs
    · rw [if_neg h200] at h
      by_cases hn : n = 0
      · subst hn
        rw [if_pos rfl] at h
        simp only [Prod.mk.injEq] at h
        obtain ⟨h1, h2, h3⟩ := h
        subst h1; subst h2; subst h3
        refine ⟨by omega, by omega, by omega, ?_, ?_, fun _ => h200, by omega⟩
        · exact Or.inr ⟨by omega, by simp⟩
        · intro _ j hj hj2
          omega
      · rw [if_neg hn] at h
        obtain ⟨ha1, ha2, hb, hc, hd, he, hg⟩ :=
          ih (idx + 1) (slept + 5) (responses idx) i' s' r' h
        refine ⟨by omega, by omega, by omega, ?_, ?_, fun _ => h200, by omega⟩
        · rcases hc with ⟨hi, hr⟩ | ⟨hi, hr⟩
          · refine Or.inr ⟨by omega, ?_⟩
            rw [hr, hi]
            simp
          · exact Or.inr ⟨by omega, hr⟩
        · intro _ j hj hj2
          by_cases hj0 : j = idx
          · subst hj0
            exact he (by omega)
          · exact hd (he (by omega)) j (by omega) hj2

/-- C1 counterexample: with retry budget `r = 1` (the default) and every
response non-200, `__get_response` issues 3 requests — the loop breaks
only after issuing a request once `attempt > retry`, so the code makes up
to `r + 1` extra requests, exceeding the claimed total of `1 + r = 2`. -/
theorem C1_retry_budget_counterexample :
    (getResponseRaw (fun _ => ⟨500, []⟩) 1).1 = 3 ∧
    ¬((getResponseRaw (fun _ => ⟨500, []⟩) 1).1 ≤ 1 + 1) := by
  constructor
  · rfl
  · decide

/-- C1 (amended): for every retry budget `r ≥ 0` (default 1),
`__get_response` issues an initial GET request and, while the status is
not 200, sleeps a fixed 5 seconds and re-issues the request, making at
most `r + 1` additional attempts beyond the first (so at most `r + 2`
requests in total); once the budget is exhausted it proceeds to envelope
extraction with the last response regardless of its final status. -/
theorem C1_retry_budget (responses : Nat → HttpResponse) (retry : Nat) :
    1 ≤ (getResponseRaw responses retry).1 ∧
    (getResponseRaw responses retry).1 ≤ retry + 2 ∧
    (getResponseRaw responses retry).2.1
      = 5 * ((getResponseRaw responses retry).1 - 1) ∧
    (getResponseRaw responses retry).2.2
      = responses ((getResponseRaw responses retry).1 - 1) ∧
    (∀ j, j + 1 < (getResponseRaw responses retry).1 →
      (responses j).status_code ≠ 200) ∧
    ((getResponseRaw responses retry).2.2.status_code ≠ 200 →
      (getResponseRaw responses retry).1 = retry + 2) ∧
    get_response_payload responses retry
      = get_response_data (getResponseRaw responses retry).2.2 := by
  obtain ⟨ha1, ha2, hb, hc, hd, he, hg⟩ :=
    getResponseLoop_spec responses (retry + 1) 1 0 (responses 0)
      (getResponseRaw responses retry).1
      (getResponseRaw responses retry).2.1
      (getResponseRaw responses retry).2.2 rfl
  refine ⟨ha1, by omega, by omega, ?_, ?_, by omega, rfl⟩
  · rcases hc with ⟨hi, hr⟩ | ⟨_, hr⟩
    · rw [hr, hi]
    · exact hr
  · intro j hj
    by_cases hj0 : j = 0
    · subst hj0
      exact he (by omega)
    · exact hd (he (by omega)) j (by omega) hj

/-- Witness for C1 (amended): with every response a 404 and retry budget
2, the budget-exhaustion clause gives exactly `2 + 2` issued requests. -/
theorem C1_retry_budget_witness :
    (getResponseRaw (fun _ => ⟨404, []⟩) 2).1 = 2 + 2 :=
  (C1_retry_budget (fun _ => ⟨404, []⟩) 2).2.2.2.2.2.1 (by decide)

/-- C7: for every timestamp (string or datetime-like) denoting an instant
`t`, `convert_datetime_precision` renders `t` at day precision for code
`"d"`, hour precision for `"h"`, minute precision for `"M"` and second
precision for `"s"`; for the fixed instant these four renderings have
strictly increasing string lengths; every code outside
`{"d", "h", "M", "s"}` raises a `ValueError`. -/
theorem C7_precision (ts : TimestampInput) (t : PyDateTime)
    (h : resolveTimestamp ts = some t) :
    convert_datetime_precision ts "d" = .ok (strftime_d t) ∧
    convert_datetime_precision ts "h" = .ok (strftime_h t) ∧
    convert_datetime_precision ts "M" = .ok (strftime_M t) ∧
    convert_datetime_precision ts "s" = .ok (strftime_s t) ∧
    (strftime_d t).length < (strftime_h t).length ∧
    (strftime_h t).length < (strftime_M t).length ∧
    (strftime_M t).length < (strftime_s t).length ∧
    (∀ code, code ∉ ["d", "h", "M", "s"] →
      convert_datetime_precision ts code
        = .error "ValueError: time_interval should be \"d, h, M, s\"") := by
  have hsp : (" " : String).length = 1 := rfl
  have hcl : (":" : String).length = 1 := rfl
  refine ⟨?_, ?_, ?_, ?_, ?_, ?_, ?_, ?_⟩
  · simp only [convert_datetime_precision]
    rw [h]
    simp [dictGet]
  · simp only [convert_datetime_precision]
    rw [h]
    simp [dictGet]
  · simp only [convert_datetime_precision]
    rw [h]
    simp [dictGet]
  · simp only [convert_datetime_precision]
    rw [h]
    simp [dictGet]
  · simp only [strftime_h, String.length_append, hsp]
    omega
  · simp only [strftime_M, String.length_append, hcl]
    omega
  · simp only [strftime_s, String.length_append, hcl]
    omega
  · intro code hcode
    simp only [List.mem_cons, List.mem_singleton, not_or] at hcode
    obtain ⟨h1, h2, h3, h4, _⟩ := hcode
    simp only [convert_datetime_precision]
    rw [h]
    simp [dictGet, Ne.symm h1, Ne.symm h2, Ne.symm h3, Ne.symm h4]

/-- Witness for C7 at the instant 2021-01-01T00:00:00Z, given as a
string: hour rendering and a rejected precision code `"x"`. -/
theorem C7_precision_witness :
    convert_datetime_precision (.ofString "2021-01-01T00:00:00Z") "h"
      = .ok "2021-01-01 00" ∧
    convert_datetime_precision (.ofString "2021-01-01T00:00:00Z") "x"
      = .error "ValueError: time_interval should be \"d, h, M, s\"" := by
  have hth := C7_precision (.ofString "2021-01-01T00:00:00Z")
    ⟨2021, 1, 1, 0, 0, 0⟩ rfl
  exact ⟨hth.2.1, hth.2.2.2.2.2.2.2 "x" (by decide)⟩

/-- `split_list` on the empty list: `range(0, 0, n)` is empty. -/
theorem split_list_nil {α : Type u} (n : Nat) :
    split_list ([] : List α) n = [] := by
  rcases n with _ | m
  · simp [split_list]
  · simp [split_list, Nat.div_eq_of_lt (show m < m + 1 by omega)]

/-- Unfolding `split_list` on a non-empty list: the first slice is
`l[0:n]` and the remaining slices are `split_list` of `l[n:]`. -/
theorem split_list_cons {α : Type u} (l : List α) (n : Nat) (hn : 0 < n)
    (hl : l ≠ []) :
    split_list l n = l.take n :: split_list (l.drop n) n := by
  have hL : 1 ≤ l.length := List.length_pos.mpr hl
  have hc : (l.length + n - 1) / n = (l.length - 1) / n + 1 := by
    have he : l.length + n - 1 = (l.length - 1) + n := by omega
    rw [he, Nat.add_div_right _ hn]
  have hc' : ((l.drop n).length + n - 1) / n = (l.length - 1) / n := by
    rw [List.length_drop]
    by_cases hln : n ≤ l.length
    · have he : l.length - n + n - 1 = l.length - 1 := by omega
      rw [he]
    · have h1 : l.length - n = 0 := by omega
      rw [h1]
      have h2 : 0 + n - 1 = n - 1 := by omega
      rw [h2, Nat.div_eq_of_lt (by omega), Nat.div_eq_of_lt (by omega)]
  simp only [split_list]
  rw [hc, hc', List.range'_succ]
  simp only [List.map_cons, List.drop_zero]
  congr 1
  rw [show 0 + n = n + 0 by omega, ← List.map_add_range', List.map_map]
  apply List.map_congr_left
  intro i _
  simp only [Function.comp_apply]
  rw [List.drop_drop]

/-- C10: for every list `l` and positive chunk length `n`,
`split_list(l, n)` returns consecutive slices of `l` whose concatenation
equals `l`; every chunk except possibly the last has exactly `n`
elements, the last has between 1 and `n`; the result is empty exactly
when `l` is empty. -/
theorem C10_split_list {α : Type u} (l : List α) (n : Nat) (hn : 0 < n) :
    (split_list l n).flatten = l ∧
    (∀ c ∈ (split_list l n).dropLast, c.length = n) ∧
    (∀ c, (split_list l n).getLast? = some c →
      1 ≤ c.length ∧ c.length ≤ n) ∧
    (split_list l n = [] ↔ l = []) := by
  suffices h : ∀ (N : Nat) (l : List α), l.length ≤ N →
      (split_list l n).flatten = l ∧
      (∀ c ∈ (split_list l n).dropLast, c.length = n) ∧
      (∀ c, (split_list l n).getLast? = some c →
        1 ≤ c.length ∧ c.length ≤ n) ∧
      (split_list l n = [] ↔ l = []) by
    exact h l.length l le_rfl
  intro N
  induction N with
  | zero =>
    intro l hl
    have hnil : l = [] := List.length_eq_zero.mp (by omega)
    subst hnil
    rw [split_list_nil]
    refine ⟨rfl, by simp, by simp, by simp⟩
  | succ N ihN =>
    intro l hl
    rcases eq_or_ne l [] with rfl | hne
    · rw [split_list_nil]
      refine ⟨rfl, by simp, by simp, by simp⟩
    · have hL : 1 ≤ l.length := List.length_pos.mpr hne
      have hdlen : (l.drop n).length ≤ N := by
        rw [List.length_drop]
        omega
      obtain ⟨ihj, ihd, ihl, ihe⟩ := ihN (l.drop n) hdlen
      rw [split_list_cons l n hn hne]
      refine ⟨?_, ?_, ?_, ?_⟩
      · rw [List.flatten_cons, ihj, List.take_append_drop]
      · by_cases hS : split_list (l.drop n) n = []
        · rw [hS]
          simp
        · rw [List.dropLast_cons_of_ne_nil hS]
          intro c hc
          rcases List.mem_cons.mp hc with rfl | hc'
          · have hd : l.drop n ≠ [] := fun hz => hS (ihe.mpr hz)
            have hlen : n < l.length := by
              have hp := List.length_pos.mpr hd
              rw [List.length_drop] at hp
              omega
            rw [List.length_take]
            exact Nat.min_eq_left (by omega)
          · exact ihd c hc'
      · intro c hc
        by_cases hS : split_list (l.drop n) n = []
        · rw [hS] at hc
          simp only [List.getLast?_singleton, Option.some.injEq] at hc
          subst hc
          have hd : l.drop n = [] := ihe.mp hS
          have hlen : l.length ≤ n := by
            have hz := congrArg List.length hd
            rw [List.length_drop] at hz
            simp at hz
            omega
          rw [List.length_take]
          constructor
          · omega
          · omega
        · obtain ⟨b, L', hbl⟩ := List.exists_cons_of_ne_nil hS
          rw [hbl, List.getLast?_cons_cons] at hc
          apply ihl
          rw [hbl]
          exact hc
      · constructor
        · intro hcons
          exact absurd hcons (List.cons_ne_nil _ _)
        · intro hz
          exact absurd hz hne

/-- Witness for C10 at `l = [1, 2, 3, 4, 5]`, `n = 2`: the chunks
re-concatenate to `l`. -/
theorem C10_split_list_witness :
    0 < 2 ∧ (split_list [1, 2, 3, 4, 5] 2).flatten = [1, 2, 3, 4, 5] :=
  ⟨by decide, (C10_split_list [1, 2, 3, 4, 5] 2 (by decide)).1⟩

/-- Reduction of `Except` bind on a success value. -/
theorem exceptBind_ok {α β : Type u} (a : α) (f : α → Except String β) :
    (Except.ok a >>= f) = f a := rfl

/-- Reduction of `Except` bind on an error value. -/
theorem exceptBind_error {α β : Type u} (e : String)
    (f : α → Except String β) :
    ((Except.error e : Except String α) >>= f) = Except.error e := rfl

/-- Reduction of `Except` functorial map on a success value. -/
theorem exceptMap_ok {α β : Type u} (a : α) (f : α → β) :
    (f <$> (Except.ok a : Except String α)) = Except.ok (f a) := rfl

/-- The loop body of `parse_ohlcv_data` on a well-formed quote entry
whose metric keys are unique and do not clash with the `"time_close"`
column: the record is the raw `time_close` followed by the metrics. -/
theorem ohlcvRow_ok (tc : Json) (items : List (String × Json))
    (hnotin : "time_close" ∉ items.map Prod.fst)
    (hnd : (items.map Prod.fst).Nodup) :
    ohlcvRow (Json.obj [("time_close", tc),
        ("quote", Json.obj [("USD", Json.obj items)])])
      = .ok (("time_close", tc) :: items) := by
  have hdisj : ∀ kv ∈ items,
      kv.1 ∉ ([(("time_close" : String), tc)].map Prod.fst) := by
    intro kv hkv
    simp only [List.map_cons, List.map_nil, List.mem_singleton]
    intro he
    exact hnotin (he ▸ List.mem_map_of_mem Prod.fst hkv)
  simp [ohlcvRow, jsonGet, dictGet, Json.asObj, exceptBind_ok, exceptMap_ok,
    foldl_dictSet_eq_append items [("time_close", tc)] hnd hdisj]

/-- The loop body of `parse_quote_data` on a well-formed quote entry
whose metric keys are unique and do not clash with the `"timestamp"`
column: the record is the raw timestamp followed by the metrics. -/
theorem quoteRow_ok (ts : Json) (items : List (String × Json))
    (hnotin : "timestamp" ∉ items.map Prod.fst)
    (hnd : (items.map Prod.fst).Nodup) :
    quoteRow (Json.obj [("timestamp", ts),
        ("quote", Json.obj [("USD", Json.obj items)])])
      = .ok (("timestamp", ts) :: items) := by
  have hdisj : ∀ kv ∈ items,
      kv.1 ∉ ([(("timestamp" : String), ts)].map Prod.fst) := by
    intro kv hkv
    simp only [List.map_cons, List.map_nil, List.mem_singleton]
    intro he
    exact hnotin (he ▸ List.mem_map_of_mem Prod.fst hkv)
  simp [quoteRow, jsonGet, dictGet, Json.asObj, exceptBind_ok, exceptMap_ok,
    foldl_dictSet_eq_append items [("timestamp", ts)] hnd hdisj]

/-- C6: for every payload with a `"quotes"` list of N entries, each
carrying a `"time_close"` and a nested `"USD"` mapping of metrics (metric
keys being distinct from each other and from the `"time_close"` column
they sit next to), `parse_ohlcv_data` returns exactly N rows in input
order, each holding the entry's `time_close` value unmodified plus one
column per metric key; no timestamp normalization is applied. -/
theorem C6_parse_ohlcv (qs : List (Json × List (String × Json)))
    (hkeys : ∀ e ∈ qs, "time_close" ∉ e.2.map Prod.fst ∧
      (e.2.map Prod.fst).Nodup) :
    parse_ohlcv_data (Json.obj [("quotes", Json.arr (qs.map (fun e =>
        Json.obj [("time_close", e.1),
          ("quote", Json.obj [("USD", Json.obj e.2)])])))])
      = .ok (qs.map (fun e => ("time_close", e.1) :: e.2)) ∧
    (qs.map (fun e => (("time_close" : String), e.1) :: e.2)).length
      = qs.length := by
  constructor
  · have hmap := mapExcept_map_ok ohlcvRow
      (fun (e : Json × List (String × Json)) =>
        Json.obj [("time_close", e.1),
          ("quote", Json.obj [("USD", Json.obj e.2)])])
      (fun e => ("time_close", e.1) :: e.2) qs
      (fun e he => ohlcvRow_ok e.1 e.2 (hkeys e he).1 (hkeys e he).2)
    simp [parse_ohlcv_data, jsonGet, dictGet, Json.asArr, exceptBind_ok,
      exceptMap_ok, hmap]
  · simp

/-- Witness for C6: a single OHLCV entry keeps its raw `time_close`
string and flattens the four metrics. -/
theorem C6_parse_ohlcv_witness :
    parse_ohlcv_data (Json.obj [("quotes", Json.arr [Json.obj
        [("time_close", Json.str "2021-01-02T23:59:59.999Z"),
         ("quote", Json.obj [("USD", Json.obj
           [("open", Json.num 100), ("high", Json.num 110),
            ("low", Json.num 90), ("close", Json.num 105)])])]])])
      = .ok [[("time_close", Json.str "2021-01-02T23:59:59.999Z"),
              ("open", Json.num 100), ("high", Json.num 110),
              ("low", Json.num 90), ("close", Json.num 105)]] := by
  have h := C6_parse_ohlcv
    [(Json.str "2021-01-02T23:59:59.999Z",
      [("open", Json.num 100), ("high", Json.num 110),
       ("low", Json.num 90), ("close", Json.num 105)])]
    (by
      intro e he
      rw [List.mem_singleton] at he
      subst he
      exact ⟨by decide, by decide⟩)
  exact h.1

/-- C3 counterexample: on a payload with a `"symbol"` field and an empty
`"quotes"` list (N = 0), `parse_quote_data` raises a `KeyError` — the
empty `DataFrame` has no `"timestamp"` column to normalize — instead of
returning the symbol with a 0-row table as claimed. -/
theorem C3_parse_quotes_counterexample :
    parse_quote_data (Json.obj [("symbol", Json.str "BTC"),
        ("quotes", Json.arr [])])
      = .error "KeyError: timestamp" := rfl

/-- C3 (amended): for every payload with a `"symbol"` field and a
`"quotes"` list of N ≥ 1 entries, each carrying a parseable `"timestamp"`
string and a nested per-currency quote mapping whose metric keys are
unique and distinct from the `"timestamp"` column, `parse_quote_data`
returns the symbol together with a table of exactly N rows in input
order, one column per metric key of each entry's `"USD"` mapping plus a
timestamp column rendered at hour precision (`"YYYY-MM-DD HH"`).  For
N = 0 the code instead raises a `KeyError` (see the counterexample). -/
theorem C3_parse_quotes (sym : Json)
    (qs : List (String × List (String × Json))) (t : String → PyDateTime)
    (hqs : qs ≠ [])
    (hts : ∀ e ∈ qs, dateutil_parse e.1 = some (t e.1))
    (hkeys : ∀ e ∈ qs, "timestamp" ∉ e.2.map Prod.fst ∧
      (e.2.map Prod.fst).Nodup) :
    parse_quote_data (Json.obj [("symbol", sym), ("quotes", Json.arr
        (qs.map (fun e => Json.obj [("timestamp", Json.str e.1),
          ("quote", Json.obj [("USD", Json.obj e.2)])])))])
      = .ok ⟨sym, qs.map (fun e =>
          ("timestamp", Json.str (strftime_h (t e.1))) :: e.2)⟩ ∧
    (qs.map (fun e =>
      (("timestamp" : String), Json.str (strftime_h (t e.1))) :: e.2)).length
      = qs.length := by
  obtain ⟨e0, qs', rfl⟩ := List.exists_cons_of_ne_nil hqs
  constructor
  · have hmap1 := mapExcept_map_ok quoteRow
      (fun (e : String × List (String × Json)) =>
        Json.obj [("timestamp", Json.str e.1),
          ("quote", Json.obj [("USD", Json.obj e.2)])])
      (fun e => ("timestamp", Json.str e.1) :: e.2) (e0 :: qs')
      (fun e he => quoteRow_ok (Json.str e.1) e.2 (hkeys e he).1
        (hkeys e he).2)
    have hrow2 : ∀ e ∈ e0 :: qs',
        convertRowTimestamp (("timestamp", Json.str e.1) :: e.2)
          = .ok (("timestamp", Json.str (strftime_h (t e.1))) :: e.2) := by
      intro e he
      simp [convertRowTimestamp, dictGet, dictSet, convert_precision_json,
        convert_datetime_precision, resolveTimestamp, hts e he,
        exceptBind_ok]
    have hmap2 := mapExcept_map_ok convertRowTimestamp
      (fun (e : String × List (String × Json)) =>
        ("timestamp", Json.str e.1) :: e.2)
      (fun e => ("timestamp", Json.str (strftime_h (t e.1))) :: e.2)
      (e0 :: qs') hrow2
    simp only [List.map_cons] at hmap1 hmap2
    simp [parse_quote_data, jsonGet, dictGet, Json.asArr, exceptBind_ok,
      exceptMap_ok, hmap1, hmap2]
  · simp

/-- Witness for C3 (amended), the spec's own scenario: one BTC quote at
`2021-01-01T00:00:00Z` with price 100 becomes one row with the timestamp
normalized to `"2021-01-01 00"`. -/
theorem C3_parse_quotes_witness :
    parse_quote_data (Json.obj [("symbol", Json.str "BTC"),
        ("quotes", Json.arr [Json.obj
          [("timestamp", Json.str "2021-01-01T00:00:00Z"),
           ("quote", Json.obj [("USD", Json.obj
             [("price", Json.num 100)])])]])])
      = .ok ⟨Json.str "BTC",
          [[("timestamp", Json.str "2021-01-01 00"),
            ("price", Json.num 100)]]⟩ := by
  have h := C3_parse_quotes (Json.str "BTC")
    [("2021-01-01T00:00:00Z", [("price", Json.num 100)])]
    (fun _ => ⟨2021, 1, 1, 0, 0, 0⟩)
    (by simp)
    (by
      intro e he
      rw [List.mem_singleton] at he
      subst he
      rfl)
    (by
      intro e he
      rw [List.mem_singleton] at he
      subst he
      exact ⟨by decide, by decide⟩)
  exact h.1

/-- C8: whenever the effective start timestamp (argument or default)
exceeds the effective end timestamp, `get_market_quotes_from_id` only
prints a warning and still issues the request with exactly that range and
the caller's parameters (6-hour interval, requested convert currency);
it never aborts, raises, or alters the range. -/
theorem C8_out_of_order_range (hdrs : List (String × String)) (c : Client)
    (responses : Nat → HttpResponse) (ticker_id : String)
    (time_start time_end : Option Int) (convert_currency : String)
    (h : time_start.getD c.default_start_date
      > time_end.getD c.default_end_date) :
    (get_market_quotes_from_id hdrs c responses ticker_id time_start
      time_end convert_currency).1 = [time_range_warning] ∧
    (get_market_quotes_from_id hdrs c responses ticker_id time_start
      time_end convert_currency).2.1.request
      = ⟨c.url ++ "/cryptocurrency/quotes/historical",
         some [("id", .str ticker_id),
               ("time_start", .int (time_start.getD c.default_start_date)),
               ("time_end", .int (time_end.getD c.default_end_date)),
               ("interval", .str "6h"),
               ("convert", .str convert_currency)],
         c.default_timeout⟩ ∧
    1 ≤ (get_market_quotes_from_id hdrs c responses ticker_id time_start
      time_end convert_currency).2.1.requests_made := by
  refine ⟨?_, rfl, ?_⟩
  · simp [get_market_quotes_from_id, h]
  · exact (getResponseLoop_spec responses (1 + 1) 1 0 (responses 0)
      (getResponseRaw responses 1).1 (getResponseRaw responses 1).2.1
      (getResponseRaw responses 1).2.2 rfl).1

/-- Witness for C8: a standard-tier client asked for the inverted range
`start = 10 > 5 = end` prints exactly the warning and nothing else. -/
theorem C8_out_of_order_range_witness :
    (get_market_quotes_from_id [] (init 0 ⟨738000⟩ "key" true "standard" 10)
      (fun _ => ⟨200, [("data", Json.null)]⟩) "1" (some 10) (some 5)
      "USD").1 = [time_range_warning] :=
  (C8_out_of_order_range [] (init 0 ⟨738000⟩ "key" true "standard" 10)
    (fun _ => ⟨200, [("data", Json.null)]⟩) "1" (some 10) (some 5) "USD"
    (by decide)).1

/-- C9: every public operation leaves the configuration fields fixed at
construction unchanged; the only mutated field is the lazily-built
session, created at most once on first access — carrying the JSON
content-type header and the API-key header — and returned unchanged by
every subsequent access. -/
theorem C9_frame (hdrs : List (String × String)) (c : Client)
    (responses : Nat → HttpResponse) (ticker_id : String)
    (time_start time_end : Option Int) (convert_currency : String) :
    sameConfig c (session hdrs c).1 ∧
    sameConfig c (get_ticker_list hdrs c responses).client ∧
    sameConfig c (get_meta_data_from_id hdrs c responses ticker_id).client ∧
    sameConfig c (get_market_quotes_from_id hdrs c responses ticker_id
      time_start time_end convert_currency).2.1.client ∧
    sameConfig c (get_ohlcv_from_id hdrs c responses ticker_id
      convert_currency).1.client ∧
    (c._session = none →
      (session hdrs c).1._session = some (session hdrs c).2 ∧
      dictGet (session hdrs c).2.headers "Content-Type"
        = some "application/json" ∧
      dictGet (session hdrs c).2.headers "X-CMC_PRO_API_KEY"
        = some c.api_key) ∧
    (∀ s0, c._session = some s0 → session hdrs c = (c, s0)) ∧
    session hdrs (session hdrs c).1 = ((session hdrs c).1, (session hdrs c).2) := by
  have hbase : sameConfig c (session hdrs c).1 := by
    cases hc : c._session with
    | none => simp [sameConfig, session, hc]
    | some s => simp [sameConfig, session, hc]
  refine ⟨hbase, hbase, hbase, hbase, hbase, ?_, ?_, ?_⟩
  · intro hnone
    refine ⟨?_, ?_, ?_⟩
    · simp [session, hnone]
    · simp only [session, hnone]
      rw [dictGet_dictSet_ne _ _ _ _ (by decide), dictGet_dictSet_self]
    · simp only [session, hnone]
      rw [dictGet_dictSet_self]
  · intro s0 hs0
    simp [session, hs0]
  · cases hc : c._session with
    | none => simp [session, hc]
    | some s => simp [session, hc]

/-- Witness for C9: a freshly constructed client (whose `_session` is
`None`) gets a session carrying its API key header on first access. -/
theorem C9_frame_witness :
    dictGet ((session [] (init 0 ⟨738000⟩ "key" true "standard" 10)
      ).2.headers) "X-CMC_PRO_API_KEY" = some "key" :=
  ((C9_frame [] (init 0 ⟨738000⟩ "key" true "standard" 10)
    (fun _ => ⟨200, []⟩) "1" none none "USD").2.2.2.2.2.1 rfl).2.2
